import Mathlib

/-!
Shallow embedding of the RFQ batch mailer (`mass_mail.py`) and proofs about
its retry/resume state machine, replay logic, configuration validation and
message construction.  Definitions follow the Python source; spec-side
recomputations used for refinement statements are clearly marked.
-/

namespace MassMail

/-! ## String helpers

Python's `str.strip()` and `str.lower()` for the ASCII data handled here. -/

def isSpaceChar (c : Char) : Bool := c == ' ' || c == '\t' || c == '\n' || c == '\r'

/-- Python `str.strip()`: drop leading and trailing whitespace. -/
def pyStrip (s : String) : String :=
  ⟨((s.data.dropWhile isSpaceChar).reverse.dropWhile isSpaceChar).reverse⟩

/-- Python `str.lower()` (ASCII). -/
def pyLower (s : String) : String := ⟨s.data.map Char.toLower⟩

/-! ## Configuration (`load_env`, mass_mail.py lines 18-45) -/

/-- The environment variables `load_env` reads.  `none` models an unset
variable; `some ""` an empty one.  `maxRetries` is the already-parsed
integer value of `MAX_RETRIES` (default 3 when unset). -/
structure Env where
  host : Option String
  user : Option String
  password : Option String
  bodyHtmlTpl : Option String
  attachFormat : Option String
  maxRetries : Int
deriving DecidableEq, Repr

structure Cfg where
  host : String
  user : String
  password : String
  bodyHtmlTpl : String
  attachFormat : String
  maxRetries : Int
deriving DecidableEq, Repr

inductive ConfigError where
  | missingVars (vars : List String)
  | missingBodyTpl
  | badAttachFormat
deriving DecidableEq, Repr

/-- Python truthiness test `not cfg[k]` on a string-or-None value. -/
def isFalsy : Option String → Bool
  | none => true
  | some s => s == ""

/-- Source line 36: `missing = [k for k in ("host", "user", "password") if not cfg[k]]`. -/
def missingVarsOf (env : Env) : List String :=
  ([("host", env.host), ("user", env.user), ("password", env.password)].filter
    (fun p => isFalsy p.2)).map Prod.fst

/-- Lines 43-44: `if cfg["max_retries"] < 1: cfg["max_retries"] = 3`. -/
def validatedMaxRetries (raw : Int) : Int := if raw < 1 then 3 else raw

/-- Model of `load_env` (lines 18-45): build the config, raise on missing
host/user/password (all listed at once), then on a missing body template,
then on a bad attachment format; substitute 3 for an invalid max-retries. -/
def load_env (env : Env) : Except ConfigError Cfg :=
  let attachFormat := pyLower (env.attachFormat.getD "pdf")
  let bodyTpl := env.bodyHtmlTpl.getD ""
  if missingVarsOf env ≠ [] then .error (.missingVars (missingVarsOf env))
  else if bodyTpl == "" then .error .missingBodyTpl
  else if !(attachFormat == "pdf" || attachFormat == "docx") then .error .badAttachFormat
  else .ok { host := env.host.getD "", user := env.user.getD "",
             password := env.password.getD "", bodyHtmlTpl := bodyTpl,
             attachFormat := attachFormat,
             maxRetries := validatedMaxRetries env.maxRetries }

/-! ## Message construction (`add_attachments`, `send_one`) -/

/-- Model of `add_attachments` (lines 126-136), abstracted over attachment-path
existence: each `Bool` is `path.exists()` for one attachment, in order.
The first missing path raises `FileNotFoundError`. -/
def add_attachments : List Bool → Except String Unit
  | [] => .ok ()
  | e :: rest => if e then add_attachments rest else .error "Attachment not found"

deriving instance DecidableEq for Except

/-- Result of one `send_one` call: how many times the transport
(`server.send_message`) was invoked, and the returned message id or the
raised error. -/
structure SendOutcome where
  transportCalls : Nat
  result : Except String String
deriving DecidableEq, Repr

/-- Model of `send_one` (lines 166-213) at the level of its failure structure:
headers/bodies are built, then `add_attachments` runs (line 202), and only
afterwards is `server.send_message` called (line 212).  `transportSend`
models that single call: `.ok msgId` on success, `.error e` on a raised
transport error. -/
def send_one (attachmentsExist : List Bool) (transportSend : Except String String) :
    SendOutcome :=
  match add_attachments attachmentsExist with
  | .error e => ⟨0, .error e⟩
  | .ok _ =>
    match transportSend with
    | .error e => ⟨1, .error e⟩
    | .ok msgId => ⟨1, .ok msgId⟩

/-! ## Run log data model -/

structure Contact where
  email : String
  name : String
  gender : String
  company : String
deriving DecidableEq, Repr

/-- One run-log row (the claim-relevant columns of `log_fields`). -/
structure LogRow where
  attempt : Nat
  email : String
  name : String
  gender : String
  company : String
  status : String
  message_id : String
  error : String
deriving DecidableEq, Repr

def sentRow (c : Contact) (attempt : Nat) (msgId : String) : LogRow :=
  ⟨attempt, c.email, c.name, c.gender, c.company, "sent", msgId, ""⟩

def failedRow (c : Contact) (attempt : Nat) (err : String) : LogRow :=
  ⟨attempt, c.email, c.name, c.gender, c.company, "failed", "", err⟩

def abortedRow (c : Contact) (attempt : Nat) (err : String) : LogRow :=
  ⟨attempt, c.email, c.name, c.gender, c.company, "aborted_max_retries", "", err⟩

def skippedRow (c : Contact) (already : Nat) (lastErr : String) : LogRow :=
  ⟨already, c.email, c.name, c.gender, c.company, "skipped_max_retries", "", lastErr⟩

/-- Outcome of one attempt body (render + build + send) for a given attempt
number: either a message id or the text of the caught exception. -/
inductive SendResult where
  | ok (msgId : String)
  | err (e : String)
deriving DecidableEq, Repr

/-! ## Send orchestrator (`main`, lines 352-431) -/

/-- The `while attempt <= cfg["max_retries"]` loop (lines 368-431).
`outcome k` is the result of the attempt body at attempt number `k`.
Returns the emitted log rows in order and the number of attempt-body
executions (delivery attempts).  `fuel` is an upper bound on the remaining
iterations; the caller passes exactly `maxRetries + 1 - attempt`, so the
guard `attempt ≤ maxRetries` (not fuel exhaustion) always decides exit. -/
def attemptLoop (maxRetries : Nat) (c : Contact) (outcome : Nat → SendResult) :
    Nat → Nat → List LogRow × Nat
  | _, 0 => ([], 0)
  | attempt, fuel + 1 =>
    if attempt ≤ maxRetries then
      match outcome attempt with
      | .ok msgId => ([sentRow c attempt msgId], 1)
      | .err e =>
        if maxRetries ≤ attempt then
          ([failedRow c attempt e, abortedRow c attempt e], 1)
        else
          let rest := attemptLoop maxRetries c outcome (attempt + 1) fuel
          (failedRow c attempt e :: rest.1, rest.2 + 1)
    else ([], 0)

/-- Per-contact processing (lines 352-431): the `already >= max_retries`
pre-check emitting a `skipped_max_retries` row, otherwise the attempt loop
starting at `already + 1`.  `prevAttempts` models `prev_attempts.get(email, 0)`
and `lastErrorMap` models `last_error_map.get(email, "")`. -/
def processContact (maxRetries : Nat) (prevAttempts : String → Nat)
    (lastErrorMap : String → String) (outcome : Nat → SendResult) (c : Contact) :
    List LogRow × Nat :=
  let already := prevAttempts c.email
  if maxRetries ≤ already then
    ([skippedRow c already (lastErrorMap c.email)], 0)
  else
    attemptLoop maxRetries c outcome (already + 1) (maxRetries - already)

/-- The whole send loop `for c in contacts` (line 352): rows of all contacts
in order. -/
def runAll (maxRetries : Nat) (prevAttempts : String → Nat)
    (lastErrorMap : String → String) (outcomes : Contact → Nat → SendResult) :
    List Contact → List LogRow
  | [] => []
  | c :: rest =>
    (processContact maxRetries prevAttempts lastErrorMap (outcomes c) c).1 ++
      runAll maxRetries prevAttempts lastErrorMap outcomes rest

/-! ## Latest-status map (`latest_status`, lines 348, 363, 404, 418, 427) -/

structure StatusRec where
  status : String
  attempt : Nat
  message_id : String
  error : String
deriving DecidableEq, Repr

/-- The four fields every `latest_status[email] = {...}` assignment copies
from the log row written immediately before it. -/
def rowStatusRec (r : LogRow) : StatusRec :=
  ⟨r.status, r.attempt, r.message_id, r.error⟩

/-- One `latest_status[email] = ...` dict assignment, modelled by consing to
an association list read through first-match lookup (last write wins). -/
def updateLatest (m : List (String × StatusRec)) (r : LogRow) :
    List (String × StatusRec) :=
  (r.email, rowStatusRec r) :: m

/-- The `latest_status` dict at the end of the run: every written log row is
paired in the source with an identical-fields dict assignment. -/
def latestStatus (rows : List LogRow) : List (String × StatusRec) :=
  rows.foldl updateLatest []

def lookupLatest (m : List (String × StatusRec)) (email : String) : Option StatusRec :=
  (m.find? (fun p => p.1 == email)).map Prod.snd

/-- Spec-side: the temporally last log row for `email`, projected to its
status record (the "last status wins per contact" fold of the spec). -/
def lastFor (email : String) : List LogRow → Option StatusRec
  | [] => none
  | r :: rs =>
    match lastFor email rs with
    | some x => some x
    | none => if r.email == email then some (rowStatusRec r) else none

/-! ## Replay of a prior log (`--retry-from-log`, lines 275-302) -/

/-- One row of the prior log being replayed, as read by `csv.DictReader`
(the replay only consults these columns). -/
structure RawRow where
  email : String
  name : String
  gender : String
  company : String
  status : String
  error : String
deriving DecidableEq, Repr

/-- The value of one `tmp[email]` dict (line 288-291). -/
structure TmpEntry where
  email : String
  name : String
  gender : String
  company : String
  prev : Nat
  sent : Bool
  err : String
deriving DecidableEq, Repr

/-- Line 286: `status = (row.get("status") or "").strip().lower()`. -/
def normStatus (r : RawRow) : String := pyLower (pyStrip r.status)

def failureStatuses : List String := ["failed", "aborted_max_retries", "skipped_max_retries"]

/-- The fresh `tmp[email]` dict of lines 288-291 (note `(row.get("gender") or
"x")`: an empty gender becomes `"x"` before strip/lower). -/
def initEntry (email : String) (r : RawRow) : TmpEntry :=
  { email := email, name := pyStrip r.name,
    gender := pyLower (pyStrip (if r.gender == "" then "x" else r.gender)),
    company := pyStrip r.company, prev := 0, sent := false, err := "" }

/-- Lines 292-297: the status-dependent update of `tmp[email]`. -/
def applyRow (d : TmpEntry) (r : RawRow) : TmpEntry :=
  if normStatus r == "sent" then { d with sent := true }
  else if failureStatuses.contains (normStatus r) then
    { d with prev := d.prev + 1, err := if r.error == "" then d.err else r.error }
  else d

def findEntry : List TmpEntry → String → Option TmpEntry
  | [], _ => none
  | d :: tl, email => if d.email == email then some d else findEntry tl email

/-- Processing of one prior-log row (lines 282-297).  `tmp` is the
insertion-ordered dict, modelled as a list unique in `email`. -/
def replayStep (tmp : List TmpEntry) (r : RawRow) : List TmpEntry :=
  let email := pyStrip r.email
  if email == "" then tmp
  else if (findEntry tmp email).isSome then
    tmp.map (fun d => if d.email == email then applyRow d r else d)
  else tmp ++ [applyRow (initEntry email r) r]

/-- The `tmp` dict after the whole `for row in reader` loop. -/
def buildTmp (rows : List RawRow) : List TmpEntry :=
  List.foldl replayStep [] rows

/-- Line 299 filter: `if not d["sent"] and d["prev"] < cfg["max_retries"]`. -/
def includedEntries (maxRetries : Nat) (rows : List RawRow) : List TmpEntry :=
  (buildTmp rows).filter (fun d => !d.sent && decide (d.prev < maxRetries))

/-- The `Contact` built from a `tmp` entry at line 300. -/
def mkContact (d : TmpEntry) : Contact :=
  { email := d.email, name := d.name, gender := d.gender, company := d.company }

/-- The `contacts` list built by the replay branch (line 300). -/
def replayContacts (maxRetries : Nat) (rows : List RawRow) : List Contact :=
  (includedEntries maxRetries rows).map mkContact

/-- Lookup `prev_attempts.get(email, 0)` for the dict filled at line 301. -/
def carriedPrev (maxRetries : Nat) (rows : List RawRow) (email : String) : Nat :=
  ((findEntry (includedEntries maxRetries rows) email).map TmpEntry.prev).getD 0

/-- Lookup `last_error_map.get(email, "")` for the dict filled at line 302. -/
def carriedErr (maxRetries : Nat) (rows : List RawRow) (email : String) : String :=
  ((findEntry (includedEntries maxRetries rows) email).map TmpEntry.err).getD ""

/-! ### Spec-side recomputations over the rows of one email -/

/-- The prior-log rows belonging to `email` (grouping key: stripped email). -/
def rowsFor (rows : List RawRow) (email : String) : List RawRow :=
  rows.filter (fun r => pyStrip r.email == email)

def isSentRow (r : RawRow) : Bool := normStatus r == "sent"

def isFailureRow (r : RawRow) : Bool := failureStatuses.contains (normStatus r)

/-- Spec-side: "has any row status `sent`?". -/
def everSent (l : List RawRow) : Bool := l.any isSentRow

/-- Spec-side: "how many rows have status in {failed, aborted_max_retries,
skipped_max_retries}?". -/
def failCount (l : List RawRow) : Nat := l.countP (fun r => isFailureRow r)

/-- Spec-side, as the code computes it: the error of the last row that has a
failure status and a non-empty error field (empty if none). -/
def lastFailureErr : List RawRow → String
  | [] => ""
  | r :: rs =>
    let rest := lastFailureErr rs
    if rest == "" then (if isFailureRow r && r.error != "" then r.error else "") else rest

/-- Spec-side, as the claim words it: the error of the last row with a
non-empty error field, regardless of its status. -/
def lastNonEmptyErr : List RawRow → String
  | [] => ""
  | r :: rs =>
    let rest := lastNonEmptyErr rs
    if rest == "" then (if r.error != "" then r.error else "") else rest

/-- Spec-side, as the claim for C5 words it: the value of a contact field in
"whichever prior row last populated it" (last row whose stripped field value
is non-empty). -/
def lastPopulated (get : RawRow → String) : List RawRow → String
  | [] => ""
  | r :: rs =>
    let rest := lastPopulated get rs
    if rest == "" then pyStrip (get r) else rest

/-- Per-email replay fold: what `tmp[email]` sees, restricted to the rows of
one email (used to relate `buildTmp` to the spec-side recomputations). -/
def entryStep (email : String) (acc : Option TmpEntry) (r : RawRow) : Option TmpEntry :=
  match acc with
  | none => some (applyRow (initEntry email r) r)
  | some d => some (applyRow d r)

def entryOf (email : String) (l : List RawRow) : Option TmpEntry :=
  l.foldl (entryStep email) none

/-! ## Further spec-side notions used to state claims -/

/-- The last element of a list of log rows. -/
def lastRow? : List LogRow → Option LogRow
  | [] => none
  | [r] => some r
  | _ :: r :: rs => lastRow? (r :: rs)

/-- Adjacent elements strictly increase. -/
def strictChain : List Nat → Bool
  | [] => true
  | [_] => true
  | a :: b :: l => decide (a < b) && strictChain (b :: l)

/-- Claim-side (C4): "the attempt numbers ... are strictly increasing
integers starting at `previous_attempts + 1`" for a row sequence whose
attempt numbers are `l`, with `s = previous_attempts + 1`. -/
def claimAttemptsIncreasing (s : Nat) (l : List Nat) : Bool :=
  (l.head?.getD s == s) && strictChain l

/-- Claim-side (C7): every required configuration variable that is absent or
empty, counting the required HTML body template along with host, user and
password. -/
def requiredMissingSpec (env : Env) : List String :=
  (if isFalsy env.host then ["host"] else []) ++
  (if isFalsy env.user then ["user"] else []) ++
  (if isFalsy env.password then ["password"] else []) ++
  (if isFalsy env.bodyHtmlTpl then ["body_html_tpl"] else [])

/-- The emails of the `tmp` dict entries, in insertion order. -/
def tmpEmails (tmp : List TmpEntry) : List String := tmp.map TmpEntry.email

/-! ## Lemmas about the attempt loop -/

theorem attemptLoop_all_fail (maxRetries : Nat) (c : Contact)
    (outcome : Nat → SendResult) (errf : Nat → String)
    (hout : ∀ k, outcome k = .err (errf k)) :
    ∀ fuel attempt, attempt + fuel = maxRetries + 1 → attempt ≤ maxRetries →
      attemptLoop maxRetries c outcome attempt fuel =
        ((List.range' attempt fuel).map (fun k => failedRow c k (errf k)) ++
            [abortedRow c maxRetries (errf maxRetries)], fuel) := by
  intro fuel
  induction fuel with
  | zero => intro attempt hsum hle; omega
  | succ fuel ih =>
    intro attempt hsum hle
    simp only [attemptLoop, hout attempt, if_pos hle]
    by_cases hm : maxRetries ≤ attempt
    · have hatt : attempt = maxRetries := Nat.le_antisymm hle hm
      have hf : fuel = 0 := by omega
      subst hatt hf
      simp [List.range']
    · rw [if_neg hm, ih (attempt + 1) (by omega) (by omega)]
      simp [List.range'_succ]

theorem attemptLoop_status (maxRetries : Nat) (c : Contact) (outcome : Nat → SendResult) :
    ∀ fuel attempt r, r ∈ (attemptLoop maxRetries c outcome attempt fuel).1 →
      r.status = "sent" ∨ r.status = "failed" ∨ r.status = "aborted_max_retries" := by
  intro fuel
  induction fuel with
  | zero => intro attempt r hr; simp [attemptLoop] at hr
  | succ fuel ih =>
    intro attempt r hr
    by_cases hle : attempt ≤ maxRetries
    · simp only [attemptLoop, if_pos hle] at hr
      cases hout : outcome attempt with
      | ok msgId =>
        rw [hout] at hr
        simp at hr
        subst hr
        left; rfl
      | err e =>
        rw [hout] at hr
        dsimp only at hr
        by_cases hm : maxRetries ≤ attempt
        · rw [if_pos hm] at hr
          simp at hr
          rcases hr with h | h <;> subst h
          · right; left; rfl
          · right; right; rfl
        · rw [if_neg hm] at hr
          simp at hr
          rcases hr with h | h
          · subst h; right; left; rfl
          · exact ih (attempt + 1) r h
    · simp [attemptLoop, if_neg hle] at hr

theorem attemptLoop_delivery (maxRetries : Nat) (c : Contact) (outcome : Nat → SendResult) :
    ∀ fuel attempt,
      ((attemptLoop maxRetries c outcome attempt fuel).1.filter
          (fun r => r.status == "failed" || r.status == "sent")).map LogRow.attempt =
        List.range' attempt (attemptLoop maxRetries c outcome attempt fuel).2 := by
  intro fuel
  induction fuel with
  | zero => intro attempt; simp [attemptLoop]
  | succ fuel ih =>
    intro attempt
    by_cases hle : attempt ≤ maxRetries
    · simp only [attemptLoop, if_pos hle]
      cases hout : outcome attempt with
      | ok msgId => simp [sentRow, List.range']
      | err e =>
        dsimp only
        by_cases hm : maxRetries ≤ attempt
        · rw [if_pos hm]
          simp [failedRow, abortedRow, List.range']
        · rw [if_neg hm]
          simp only [List.filter_cons, List.map_cons]
          rw [List.range'_succ]
          have := ih (attempt + 1)
          simp [failedRow] at this ⊢
          exact this
    · simp [attemptLoop, if_neg hle]

theorem lastRow?_cons (a : LogRow) (l : List LogRow) (h : l ≠ []) :
    lastRow? (a :: l) = lastRow? l := by
  cases l with
  | nil => exact absurd rfl h
  | cons b t => rfl

theorem attemptLoop_lastRow (maxRetries : Nat) (c : Contact) (outcome : Nat → SendResult) :
    ∀ fuel attempt, attempt + fuel = maxRetries + 1 → attempt ≤ maxRetries →
      ∃ last, lastRow? (attemptLoop maxRetries c outcome attempt fuel).1 = some last ∧
        (last.status = "sent" ∨ last.status = "aborted_max_retries") := by
  intro fuel
  induction fuel with
  | zero => intro attempt hsum hle; omega
  | succ fuel ih =>
    intro attempt hsum hle
    simp only [attemptLoop, if_pos hle]
    cases hout : outcome attempt with
    | ok msgId => exact ⟨sentRow c attempt msgId, rfl, Or.inl rfl⟩
    | err e =>
      dsimp only
      by_cases hm : maxRetries ≤ attempt
      · rw [if_pos hm]
        exact ⟨abortedRow c attempt e, rfl, Or.inr rfl⟩
      · rw [if_neg hm]
        obtain ⟨last, hlast, hstat⟩ := ih (attempt + 1) (by omega) (by omega)
        refine ⟨last, ?_, hstat⟩
        have hne : (attemptLoop maxRetries c outcome (attempt + 1) fuel).1 ≠ [] := by
          intro hnil
          rw [hnil] at hlast
          simp [lastRow?] at hlast
        rw [lastRow?_cons _ _ hne]
        exact hlast

/-! ## Claims C2 and C3 -/

/-- C2: for a contact that enters the attempt loop (carried-forward
`previous_attempts < max_retries`) and whose every attempt body fails, the
emitted rows are exactly `max_retries - previous_attempts` `failed` rows at
attempts `previous_attempts + 1, ..., max_retries`, followed by exactly one
`aborted_max_retries` row with the same attempt number (`max_retries`) and
the same error text as the last `failed` row; the number of attempt-body
executions is `max_retries - previous_attempts`, so no delivery attempt
happens after the attempt numbered `max_retries`. -/
theorem C2_exhaustion (maxRetries : Nat) (prevAttempts : String → Nat)
    (lastErrorMap : String → String) (outcome : Nat → SendResult)
    (errf : Nat → String) (c : Contact)
    (h1 : prevAttempts c.email < maxRetries)
    (hout : ∀ k, outcome k = .err (errf k)) :
    processContact maxRetries prevAttempts lastErrorMap outcome c =
      ((List.range' (prevAttempts c.email + 1) (maxRetries - prevAttempts c.email)).map
          (fun k => failedRow c k (errf k)) ++
        [abortedRow c maxRetries (errf maxRetries)],
       maxRetries - prevAttempts c.email) := by
  unfold processContact
  rw [if_neg (by omega)]
  exact attemptLoop_all_fail maxRetries c outcome errf hout
    (maxRetries - prevAttempts c.email) (prevAttempts c.email + 1) (by omega) (by omega)

/-- Witness for C2 at `max_retries = 2`, `previous_attempts = 0`, every
attempt failing with error `"x"`. -/
theorem C2_exhaustion_witness :
    processContact 2 (fun _ => 0) (fun _ => "") (fun _ => .err "x") ⟨"a", "n", "g", "co"⟩ =
      ((List.range' 1 2).map (fun k => failedRow ⟨"a", "n", "g", "co"⟩ k "x") ++
        [abortedRow ⟨"a", "n", "g", "co"⟩ 2 "x"], 2) :=
  C2_exhaustion 2 (fun _ => 0) (fun _ => "") (fun _ => .err "x") (fun _ => "x")
    ⟨"a", "n", "g", "co"⟩ (by decide) (fun _ => rfl)

/-- C3: a contact whose carried-forward previous-attempts count is at least
`max_retries` gets exactly one log row, a `skipped_max_retries` row with
attempt number equal to that count and error equal to the carried-forward
last error, and zero attempt-body executions (so nothing is rendered, no
message is built, and the transport is never called for it). -/
theorem C3_skip (maxRetries : Nat) (prevAttempts : String → Nat)
    (lastErrorMap : String → String) (outcome : Nat → SendResult) (c : Contact)
    (h : maxRetries ≤ prevAttempts c.email) :
    processContact maxRetries prevAttempts lastErrorMap outcome c =
      ([skippedRow c (prevAttempts c.email) (lastErrorMap c.email)], 0) := by
  unfold processContact
  rw [if_pos h]

/-- Witness for C3 at `max_retries = 3`, five previous attempts. -/
theorem C3_skip_witness :
    processContact 3 (fun _ => 5) (fun _ => "err5") (fun _ => .ok "m") ⟨"a", "n", "g", "co"⟩ =
      ([skippedRow ⟨"a", "n", "g", "co"⟩ 5 "err5"], 0) :=
  C3_skip 3 (fun _ => 5) (fun _ => "err5") (fun _ => .ok "m") ⟨"a", "n", "g", "co"⟩ (by decide)

/-! ## Claim C4 -/

/-- C4 counterexample: with `max_retries = 1`, no previous attempts and a
failing attempt body, the contact's log rows are a `failed` row and an
`aborted_max_retries` row both numbered 1, so the attempt numbers on its row
sequence are `[1, 1]` — not strictly increasing as the claim states. -/
theorem C4_counterexample :
    claimAttemptsIncreasing 1
      ((processContact 1 (fun _ => 0) (fun _ => "") (fun _ => .err "boom")
          ⟨"a", "n", "g", "co"⟩).1.map LogRow.attempt) = false := by
  decide

/-- C4 amended: within one run, the attempt numbers on the delivery-attempt
rows (`failed` and `sent`) of a single contact are consecutive strictly
increasing integers starting at `previous_attempts + 1` (one per attempt-body
execution); the terminal `aborted_max_retries` row repeats the attempt number
of the last `failed` row and a `skipped_max_retries` row carries
`previous_attempts` itself; and the last row written for a processed contact
always has status `sent`, `aborted_max_retries` or `skipped_max_retries`,
never `failed`. -/
theorem C4_amended (maxRetries : Nat) (prevAttempts : String → Nat)
    (lastErrorMap : String → String) (outcome : Nat → SendResult) (c : Contact) :
    (((processContact maxRetries prevAttempts lastErrorMap outcome c).1.filter
        (fun r => r.status == "failed" || r.status == "sent")).map LogRow.attempt =
      List.range' (prevAttempts c.email + 1)
        (processContact maxRetries prevAttempts lastErrorMap outcome c).2) ∧
    ∃ last,
      lastRow? (processContact maxRetries prevAttempts lastErrorMap outcome c).1 = some last ∧
      (last.status = "sent" ∨ last.status = "aborted_max_retries" ∨
        last.status = "skipped_max_retries") ∧
      last.status ≠ "failed" := by
  unfold processContact
  by_cases h : maxRetries ≤ prevAttempts c.email
  · rw [if_pos h]
    refine ⟨by simp [skippedRow, List.range'], skippedRow c (prevAttempts c.email)
      (lastErrorMap c.email), rfl, Or.inr (Or.inr rfl), by simp [skippedRow]⟩
  · rw [if_neg h]
    constructor
    · exact attemptLoop_delivery maxRetries c outcome (maxRetries - prevAttempts c.email)
        (prevAttempts c.email + 1)
    · obtain ⟨last, hlast, hstat⟩ := attemptLoop_lastRow maxRetries c outcome
        (maxRetries - prevAttempts c.email) (prevAttempts c.email + 1) (by omega) (by omega)
      refine ⟨last, hlast, ?_, ?_⟩
      · rcases hstat with h1 | h1
        · exact Or.inl h1
        · exact Or.inr (Or.inl h1)
      · rcases hstat with h1 | h1 <;> rw [h1] <;> decide

/-! ## Claim C10 -/

/-- C10: in a fresh-list run the previous-attempts map is empty (every lookup
yields 0), and the validated max-retries is at least 1, so no contact takes
the skip branch and no `skipped_max_retries` row can appear in the run log. -/
theorem C10_fresh_no_skip (raw : Int) (lastErrorMap : String → String)
    (outcomes : Contact → Nat → SendResult) (contacts : List Contact) (r : LogRow)
    (hr : r ∈ runAll (validatedMaxRetries raw).toNat (fun _ => 0) lastErrorMap
      outcomes contacts) :
    r.status ≠ "skipped_max_retries" := by
  have hmr : 1 ≤ (validatedMaxRetries raw).toNat := by
    unfold validatedMaxRetries
    split <;> omega
  induction contacts with
  | nil => simp [runAll] at hr
  | cons c rest ih =>
    simp only [runAll, List.mem_append] at hr
    rcases hr with hr | hr
    · unfold processContact at hr
      dsimp only at hr
      rw [if_neg (by omega)] at hr
      have := attemptLoop_status (validatedMaxRetries raw).toNat c (outcomes c)
        ((validatedMaxRetries raw).toNat - 0) (0 + 1) r hr
      rcases this with h | h | h <;> rw [h] <;> decide
    · exact ih hr

/-- Witness for C10: a one-contact fresh run with a successful send; its
`sent` row is in the run log and the theorem applies to it. -/
theorem C10_fresh_no_skip_witness :
    (sentRow ⟨"a", "n", "g", "co"⟩ 1 "m").status ≠ "skipped_max_retries" :=
  C10_fresh_no_skip 0 (fun _ => "") (fun _ _ => .ok "m") [⟨"a", "n", "g", "co"⟩]
    (sentRow ⟨"a", "n", "g", "co"⟩ 1 "m") (by decide)

/-! ## Claim C8 -/

theorem lookupLatest_update (m : List (String × StatusRec)) (r : LogRow) (email : String) :
    lookupLatest (updateLatest m r) email =
      if r.email == email then some (rowStatusRec r) else lookupLatest m email := by
  unfold lookupLatest updateLatest
  cases h : r.email == email <;> simp [List.find?, h]

theorem lookupLatest_foldl (rows : List LogRow) :
    ∀ (m : List (String × StatusRec)) (email : String),
      lookupLatest (rows.foldl updateLatest m) email =
        match lastFor email rows with
        | some x => some x
        | none => lookupLatest m email := by
  induction rows with
  | nil => intro m email; rfl
  | cons r rs ih =>
    intro m email
    rw [List.foldl_cons, ih]
    simp only [lastFor]
    cases hrest : lastFor email rs with
    | some x => rfl
    | none =>
      rw [lookupLatest_update]
      cases h : r.email == email <;> simp [h]

/-- C8: the `latest_status` dict at the end of a run (every log write is
paired in the source with an identical-fields assignment) maps each email to
exactly the status record of the temporally last log row written for that
email — the last-wins fold over the run's LogEntry sequence. -/
theorem C8_roundtrip (maxRetries : Nat) (prevAttempts : String → Nat)
    (lastErrorMap : String → String) (outcomes : Contact → Nat → SendResult)
    (contacts : List Contact) (email : String) :
    lookupLatest
        (latestStatus (runAll maxRetries prevAttempts lastErrorMap outcomes contacts)) email =
      lastFor email (runAll maxRetries prevAttempts lastErrorMap outcomes contacts) := by
  unfold latestStatus
  rw [lookupLatest_foldl]
  cases h : lastFor email (runAll maxRetries prevAttempts lastErrorMap outcomes contacts) <;>
    rfl

/-! ## Claim C9 -/

theorem add_attachments_missing (l : List Bool) (h : false ∈ l) :
    add_attachments l = .error "Attachment not found" := by
  induction l with
  | nil => simp at h
  | cons b rest ih =>
    cases b with
    | false => rfl
    | true =>
      simp only [List.mem_cons] at h
      rcases h with h | h
      · cases h
      · simpa [add_attachments] using ih h

/-- C9: when some attachment path does not exist at send time,
`add_attachments` raises before `server.send_message` is reached, so the
transport is called zero times for that attempt and `send_one` ends in an
error; when the first attempt body of a contact raises that error, the
contact's first log row is a `failed` row carrying it (retryable like any
other failure). -/
theorem C9_attachment (attachmentsExist : List Bool) (transportSend : Except String String)
    (maxRetries : Nat) (prevAttempts : String → Nat) (lastErrorMap : String → String)
    (outcome : Nat → SendResult) (c : Contact)
    (hmiss : false ∈ attachmentsExist)
    (hpre : prevAttempts c.email < maxRetries)
    (hfirst : outcome (prevAttempts c.email + 1) =
      match (send_one attachmentsExist transportSend).result with
      | .ok m => .ok m
      | .error e => .err e) :
    (send_one attachmentsExist transportSend).transportCalls = 0 ∧
    ∃ e, (send_one attachmentsExist transportSend).result = .error e ∧
      (processContact maxRetries prevAttempts lastErrorMap outcome c).1.head? =
        some (failedRow c (prevAttempts c.email + 1) e) := by
  have hadd := add_attachments_missing attachmentsExist hmiss
  have hsend : send_one attachmentsExist transportSend =
      ⟨0, .error "Attachment not found"⟩ := by
    unfold send_one
    rw [hadd]
  refine ⟨by rw [hsend], "Attachment not found", by rw [hsend], ?_⟩
  rw [hsend] at hfirst
  dsimp only at hfirst
  unfold processContact
  rw [if_neg (by omega)]
  obtain ⟨f, hf⟩ : ∃ f, maxRetries - prevAttempts c.email = f + 1 :=
    ⟨maxRetries - prevAttempts c.email - 1, by omega⟩
  rw [hf]
  simp only [attemptLoop, if_pos (show prevAttempts c.email + 1 ≤ maxRetries by omega), hfirst]
  by_cases hm : maxRetries ≤ prevAttempts c.email + 1
  · rw [if_pos hm]; rfl
  · rw [if_neg hm]; rfl

/-- Witness for C9: two attachments, the second missing, transport healthy. -/
theorem C9_attachment_witness :
    (send_one [true, false] (.ok "m")).transportCalls = 0 ∧
    ∃ e, (send_one [true, false] (.ok "m")).result = .error e ∧
      (processContact 3 (fun _ => 0) (fun _ => "")
          (fun _ => .err "Attachment not found") ⟨"a", "n", "g", "co"⟩).1.head? =
        some (failedRow ⟨"a", "n", "g", "co"⟩ 1 e) :=
  C9_attachment [true, false] (.ok "m") 3 (fun _ => 0) (fun _ => "")
    (fun _ => .err "Attachment not found") ⟨"a", "n", "g", "co"⟩ (by decide) (by decide)
    (by decide)

/-! ## Claim C7 -/

/-- C7 counterexample: with `SMTP_HOST` unset and `EMAIL_BODY_HTML_TEMPLATE`
also unset (both required), `load_env` reports only `host`: the error does
not list every missing required variable at once. -/
theorem C7_counterexample :
    ¬ (load_env ⟨none, some "u", some "p", none, some "pdf", 3⟩ =
        .error (.missingVars
          (requiredMissingSpec ⟨none, some "u", some "p", none, some "pdf", 3⟩))) := by
  decide

/-- C7 amended: a configuration error lists all missing variables among
host/user/password at once, but a missing HTML body template is reported by
a separate, subsequent error (only once host/user/password are present); and
a max-retries below 1 is replaced by the default 3 in the resulting config
rather than failing (any loaded config has max-retries at least 1). -/
theorem C7_amended :
    (∀ env : Env, missingVarsOf env ≠ [] →
        load_env env = .error (.missingVars (missingVarsOf env))) ∧
    (∀ env : Env, missingVarsOf env = [] → env.bodyHtmlTpl.getD "" = "" →
        load_env env = .error .missingBodyTpl) ∧
    (∀ (env : Env) (cfg : Cfg), load_env env = .ok cfg →
        cfg.maxRetries = validatedMaxRetries env.maxRetries ∧
        (env.maxRetries < 1 → cfg.maxRetries = 3) ∧ 1 ≤ cfg.maxRetries) := by
  refine ⟨?_, ?_, ?_⟩
  · intro env h
    unfold load_env
    rw [if_pos h]
  · intro env h hbody
    unfold load_env
    rw [if_neg (by simp [h]), if_pos (by simp [hbody])]
  · intro env cfg h
    unfold load_env at h
    dsimp only at h
    split at h
    · exact Except.noConfusion h
    · split at h
      · exact Except.noConfusion h
      · split at h
        · exact Except.noConfusion h
        · cases h
          refine ⟨rfl, ?_, ?_⟩
          · intro hlt
            show validatedMaxRetries env.maxRetries = 3
            unfold validatedMaxRetries
            rw [if_pos hlt]
          · show 1 ≤ validatedMaxRetries env.maxRetries
            unfold validatedMaxRetries
            split <;> omega

/-- Witness for C7: all three transport variables unset are reported in one
error, and a negative max-retries is replaced by 3. -/
theorem C7_amended_witness :
    load_env ⟨none, none, none, some "tpl", some "pdf", -2⟩ =
      .error (.missingVars ["host", "user", "password"]) ∧
    ∀ cfg : Cfg, load_env ⟨some "h", some "u", some "p", some "tpl", some "pdf", -2⟩ =
      .ok cfg → cfg.maxRetries = 3 :=
  ⟨by
    have := C7_amended.1 ⟨none, none, none, some "tpl", some "pdf", -2⟩ (by decide)
    simpa using this,
   fun cfg h => (C7_amended.2.2 ⟨some "h", some "u", some "p", some "tpl", some "pdf", -2⟩
    cfg h).2.1 (by decide)⟩

/-! ## Replay lemmas: per-row update -/

theorem applyRow_email (d : TmpEntry) (r : RawRow) : (applyRow d r).email = d.email := by
  unfold applyRow
  by_cases hs : (normStatus r == "sent") = true
  · simp [hs]
  · by_cases hf : failureStatuses.contains (normStatus r) = true <;> simp_all

theorem applyRow_name (d : TmpEntry) (r : RawRow) : (applyRow d r).name = d.name := by
  unfold applyRow
  by_cases hs : (normStatus r == "sent") = true
  · simp [hs]
  · by_cases hf : failureStatuses.contains (normStatus r) = true <;> simp_all

theorem applyRow_gender (d : TmpEntry) (r : RawRow) : (applyRow d r).gender = d.gender := by
  unfold applyRow
  by_cases hs : (normStatus r == "sent") = true
  · simp [hs]
  · by_cases hf : failureStatuses.contains (normStatus r) = true <;> simp_all

theorem applyRow_company (d : TmpEntry) (r : RawRow) : (applyRow d r).company = d.company := by
  unfold applyRow
  by_cases hs : (normStatus r == "sent") = true
  · simp [hs]
  · by_cases hf : failureStatuses.contains (normStatus r) = true <;> simp_all

theorem applyRow_sent (d : TmpEntry) (r : RawRow) :
    (applyRow d r).sent = (d.sent || isSentRow r) := by
  unfold applyRow isSentRow
  by_cases hs : (normStatus r == "sent") = true
  · simp [hs]
  · by_cases hf : failureStatuses.contains (normStatus r) = true <;> simp_all

theorem applyRow_prev (d : TmpEntry) (r : RawRow) :
    (applyRow d r).prev = d.prev + (if isFailureRow r then 1 else 0) := by
  unfold applyRow isFailureRow
  by_cases hs : (normStatus r == "sent") = true
  · have hf : failureStatuses.contains (normStatus r) = false := by
      rw [show normStatus r = "sent" by simpa using hs]
      decide
    simp_all
  · by_cases hf : failureStatuses.contains (normStatus r) = true <;> simp_all

theorem applyRow_err (d : TmpEntry) (r : RawRow) :
    (applyRow d r).err = if isFailureRow r && r.error != "" then r.error else d.err := by
  unfold applyRow isFailureRow
  by_cases hs : (normStatus r == "sent") = true
  · have hf : failureStatuses.contains (normStatus r) = false := by
      rw [show normStatus r = "sent" by simpa using hs]
      decide
    simp_all
  · by_cases hf : failureStatuses.contains (normStatus r) = true
    · by_cases he : (r.error == "") = true
      · simp_all [show r.error = "" by simpa using he]
      · simp_all
    · simp_all

/-! ## Replay lemmas: folding all rows of one email -/

theorem foldl_applyRow_email (l : List RawRow) :
    ∀ d : TmpEntry, (l.foldl applyRow d).email = d.email := by
  induction l with
  | nil => intro d; rfl
  | cons r rs ih => intro d; rw [List.foldl_cons, ih, applyRow_email]

theorem foldl_applyRow_name (l : List RawRow) :
    ∀ d : TmpEntry, (l.foldl applyRow d).name = d.name := by
  induction l with
  | nil => intro d; rfl
  | cons r rs ih => intro d; rw [List.foldl_cons, ih, applyRow_name]

theorem foldl_applyRow_gender (l : List RawRow) :
    ∀ d : TmpEntry, (l.foldl applyRow d).gender = d.gender := by
  induction l with
  | nil => intro d; rfl
  | cons r rs ih => intro d; rw [List.foldl_cons, ih, applyRow_gender]

theorem foldl_applyRow_company (l : List RawRow) :
    ∀ d : TmpEntry, (l.foldl applyRow d).company = d.company := by
  induction l with
  | nil => intro d; rfl
  | cons r rs ih => intro d; rw [List.foldl_cons, ih, applyRow_company]

theorem foldl_applyRow_sent (l : List RawRow) :
    ∀ d : TmpEntry, (l.foldl applyRow d).sent = (d.sent || everSent l) := by
  induction l with
  | nil => intro d; simp [everSent]
  | cons r rs ih =>
    intro d
    rw [List.foldl_cons, ih, applyRow_sent]
    simp [everSent, Bool.or_assoc]

theorem foldl_applyRow_prev (l : List RawRow) :
    ∀ d : TmpEntry, (l.foldl applyRow d).prev = d.prev + failCount l := by
  induction l with
  | nil => intro d; simp [failCount]
  | cons r rs ih =>
    intro d
    rw [List.foldl_cons, ih, applyRow_prev]
    unfold failCount
    rw [List.countP_cons]
    by_cases h : isFailureRow r
    · simp [h]
      omega
    · simp [h]

theorem foldl_applyRow_err (l : List RawRow) :
    ∀ d : TmpEntry, (l.foldl applyRow d).err =
      if lastFailureErr l == "" then d.err else lastFailureErr l := by
  induction l with
  | nil => intro d; simp [lastFailureErr]
  | cons r rs ih =>
    intro d
    rw [List.foldl_cons, ih, applyRow_err]
    simp only [lastFailureErr]
    cases hrest : lastFailureErr rs == "" with
    | false => simp [hrest]
    | true =>
      simp only [hrest, if_true]
      cases hb : isFailureRow r && r.error != "" with
      | false => simp [hb]
      | true =>
        have herr : (r.error == "") = false := by
          simp only [Bool.and_eq_true, bne_iff_ne] at hb
          simpa using hb.2
        simp [hb, herr]

theorem entryStep_some (email : String) (l : List RawRow) :
    ∀ d : TmpEntry, l.foldl (entryStep email) (some d) = some (l.foldl applyRow d) := by
  induction l with
  | nil => intro d; rfl
  | cons r rs ih => intro d; rw [List.foldl_cons, List.foldl_cons]; exact ih (applyRow d r)

theorem entryOf_cons (email : String) (r : RawRow) (tl : List RawRow) :
    entryOf email (r :: tl) = some ((r :: tl).foldl applyRow (initEntry email r)) := by
  unfold entryOf
  rw [List.foldl_cons, List.foldl_cons]
  exact entryStep_some email tl (applyRow (initEntry email r) r)

/-! ## Replay lemmas: locating one email's entry in the shared dict -/

theorem findEntry_update (tmp : List TmpEntry) (r : RawRow) (em em' : String) :
    findEntry (tmp.map (fun d => if d.email == em then applyRow d r else d)) em' =
      if em' = em then (findEntry tmp em').map (fun d => applyRow d r)
      else findEntry tmp em' := by
  induction tmp with
  | nil => simp [findEntry]
  | cons d tl ih =>
    have hpres : (if d.email == em then applyRow d r else d).email = d.email := by
      split
      · exact applyRow_email d r
      · rfl
    simp only [List.map_cons, findEntry, hpres]
    by_cases hd : (d.email == em') = true
    · by_cases h : em' = em
      · subst h
        simp [hd]
      · have hde : d.email = em' := by simpa using hd
        have hdem : (d.email == em) = false := by
          rw [hde]
          simp [h]
        simp [hd, hdem, h]
    · simp only [if_neg hd]
      exact ih

theorem findEntry_append_single (tmp : List TmpEntry) (x : TmpEntry) (email : String) :
    findEntry (tmp ++ [x]) email =
      match findEntry tmp email with
      | some d => some d
      | none => if x.email == email then some x else none := by
  induction tmp with
  | nil => simp [findEntry]
  | cons d tl ih =>
    simp only [List.cons_append, findEntry]
    by_cases hd : (d.email == email) = true
    · simp [hd]
    · simp only [if_neg hd]
      exact ih

theorem initEntry_email (email : String) (r : RawRow) : (initEntry email r).email = email :=
  rfl

theorem findEntry_replayStep (tmp : List TmpEntry) (r : RawRow) (email : String)
    (h : email ≠ "") :
    findEntry (replayStep tmp r) email =
      if pyStrip r.email == email then entryStep email (findEntry tmp email) r
      else findEntry tmp email := by
  unfold replayStep
  by_cases hemp : (pyStrip r.email == "") = true
  · have hne : (pyStrip r.email == email) = false := by
      have he : pyStrip r.email = "" := by simpa using hemp
      rw [he]
      simp [Ne.symm h]
    simp [hemp, hne]
  · rw [if_neg hemp]
    by_cases hmatch : (pyStrip r.email == email) = true
    · have hm : pyStrip r.email = email := by simpa using hmatch
      rw [if_pos hmatch, hm]
      cases hfind : findEntry tmp email with
      | some d =>
        rw [if_pos (by rfl)]
        rw [findEntry_update tmp r email email, if_pos rfl, hfind]
        rfl
      | none =>
        rw [if_neg (by simp)]
        rw [findEntry_append_single, hfind]
        simp only [entryStep]
        rw [if_pos (by rw [applyRow_email, initEntry_email]; simp)]
    · rw [if_neg hmatch]
      by_cases hsome : (findEntry tmp (pyStrip r.email)).isSome = true
      · rw [if_pos hsome]
        rw [findEntry_update tmp r (pyStrip r.email) email,
          if_neg (fun hc => by rw [hc] at hmatch; simp at hmatch)]
      · rw [if_neg hsome]
        rw [findEntry_append_single]
        cases hfind : findEntry tmp email with
        | some d => rfl
        | none =>
          simp only []
          rw [if_neg (by rw [applyRow_email, initEntry_email]; exact hmatch)]

theorem findEntry_foldl (rows : List RawRow) :
    ∀ (tmp : List TmpEntry) (email : String), email ≠ "" →
      findEntry (List.foldl replayStep tmp rows) email =
        List.foldl (entryStep email) (findEntry tmp email) (rowsFor rows email) := by
  induction rows with
  | nil => intro tmp email h; rfl
  | cons r rest ih =>
    intro tmp email h
    rw [List.foldl_cons, ih (replayStep tmp r) email h]
    unfold rowsFor
    rw [List.filter_cons]
    by_cases hm : (pyStrip r.email == email) = true
    · rw [if_pos hm, List.foldl_cons, findEntry_replayStep tmp r email h, if_pos hm]
    · rw [if_neg hm, findEntry_replayStep tmp r email h, if_neg hm]

/-- The `tmp` dict's entry for a non-empty `email` is exactly the per-email
fold of that email's rows. -/
theorem findEntry_buildTmp (rows : List RawRow) (email : String) (h : email ≠ "") :
    findEntry (buildTmp rows) email = entryOf email (rowsFor rows email) := by
  unfold buildTmp entryOf
  exact findEntry_foldl rows [] email h
/-! ## Replay lemmas: uniqueness of emails in the dict -/

theorem tmpEmails_update (tmp : List TmpEntry) (r : RawRow) (em : String) :
    tmpEmails (tmp.map (fun d => if d.email == em then applyRow d r else d)) =
      tmpEmails tmp := by
  induction tmp with
  | nil => rfl
  | cons d tl ih =>
    unfold tmpEmails at ih ⊢
    rw [List.map_cons, List.map_cons, List.map_cons, ih]
    congr 1
    split
    · exact applyRow_email d r
    · rfl

theorem findEntry_isSome_of_mem (tmp : List TmpEntry) (em : String)
    (h : em ∈ tmpEmails tmp) : (findEntry tmp em).isSome = true := by
  induction tmp with
  | nil => simp [tmpEmails] at h
  | cons d tl ih =>
    unfold findEntry
    by_cases hd : (d.email == em) = true
    · rw [if_pos hd]
      rfl
    · rw [if_neg hd]
      apply ih
      simp only [tmpEmails, List.map_cons, List.mem_cons] at h
      rcases h with h | h
      · exact absurd (by simp [h]) hd
      · exact h

theorem findEntry_eq_none_of_not_mem (tmp : List TmpEntry) (em : String)
    (h : em ∉ tmpEmails tmp) : findEntry tmp em = none := by
  induction tmp with
  | nil => rfl
  | cons d tl ih =>
    simp only [tmpEmails, List.map_cons, List.mem_cons] at h
    push_neg at h
    unfold findEntry
    rw [if_neg (by simpa using fun hc => h.1 hc.symm)]
    exact ih h.2

theorem nodup_append_one (l : List String) (a : String) (h1 : l.Nodup) (h2 : a ∉ l) :
    (l ++ [a]).Nodup := by
  induction l with
  | nil => simp
  | cons d tl ih =>
    rw [List.cons_append, List.nodup_cons]
    rw [List.nodup_cons] at h1
    simp only [List.mem_cons, not_or] at h2
    refine ⟨?_, ih h1.2 h2.2⟩
    simp only [List.mem_append, List.mem_singleton, not_or]
    exact ⟨h1.1, fun hc => h2.1 hc.symm⟩

theorem replayStep_nodup (tmp : List TmpEntry) (r : RawRow)
    (h : (tmpEmails tmp).Nodup) : (tmpEmails (replayStep tmp r)).Nodup := by
  unfold replayStep
  by_cases hemp : (pyStrip r.email == "") = true
  · rw [if_pos hemp]
    exact h
  · rw [if_neg hemp]
    by_cases hsome : (findEntry tmp (pyStrip r.email)).isSome = true
    · rw [if_pos hsome, tmpEmails_update]
      exact h
    · rw [if_neg hsome]
      have hnm : pyStrip r.email ∉ tmpEmails tmp := by
        intro hc
        exact hsome (findEntry_isSome_of_mem tmp (pyStrip r.email) hc)
      have : tmpEmails (tmp ++ [applyRow (initEntry (pyStrip r.email) r) r]) =
          tmpEmails tmp ++ [pyStrip r.email] := by
        unfold tmpEmails
        rw [List.map_append, List.map_singleton, applyRow_email, initEntry_email]
      rw [this]
      exact nodup_append_one _ _ h hnm

theorem buildTmp_nodup (rows : List RawRow) : (tmpEmails (buildTmp rows)).Nodup := by
  unfold buildTmp
  have : ∀ tmp : List TmpEntry, (tmpEmails tmp).Nodup →
      (tmpEmails (List.foldl replayStep tmp rows)).Nodup := by
    induction rows with
    | nil => intro tmp h; exact h
    | cons r rest ih =>
      intro tmp h
      rw [List.foldl_cons]
      exact ih (replayStep tmp r) (replayStep_nodup tmp r h)
  exact this [] (by simp [tmpEmails])

/-! ## Replay lemmas: filtering the dict -/

theorem findEntry_cons (d : TmpEntry) (tl : List TmpEntry) (email : String) :
    findEntry (d :: tl) email = if d.email == email then some d else findEntry tl email :=
  rfl

theorem findEntry_filter (q : TmpEntry → Bool) (l : List TmpEntry) (email : String)
    (hU : (tmpEmails l).Nodup) :
    findEntry (l.filter q) email =
      match findEntry l email with
      | some d => if q d then some d else none
      | none => none := by
  induction l with
  | nil => rfl
  | cons d tl ih =>
    have hU' : (tmpEmails tl).Nodup := by
      simp only [tmpEmails, List.map_cons, List.nodup_cons] at hU
      exact hU.2
    have hdnm : d.email ∉ tmpEmails tl := by
      simp only [tmpEmails, List.map_cons, List.nodup_cons] at hU
      exact hU.1
    rw [List.filter_cons]
    by_cases hq : q d = true
    · rw [if_pos hq, findEntry_cons, findEntry_cons]
      by_cases hd : (d.email == email) = true
      · rw [if_pos hd, if_pos hd]
        dsimp only
        rw [if_pos hq]
      · rw [if_neg hd, if_neg hd]
        exact ih hU'
    · rw [if_neg hq, findEntry_cons]
      by_cases hd : (d.email == email) = true
      · rw [if_pos hd]
        dsimp only
        rw [if_neg hq]
        have hmail : d.email = email := by simpa using hd
        rw [ih hU', findEntry_eq_none_of_not_mem tl email (by rw [← hmail]; exact hdnm)]
      · rw [if_neg hd]
        exact ih hU'
/-! ## Replay lemmas: the included set -/

theorem findEntry_included (mr : Nat) (rows : List RawRow) (email : String)
    (h : email ≠ "") :
    findEntry (includedEntries mr rows) email =
      match entryOf email (rowsFor rows email) with
      | some d => if !d.sent && decide (d.prev < mr) then some d else none
      | none => none := by
  unfold includedEntries
  rw [findEntry_filter _ _ _ (buildTmp_nodup rows), findEntry_buildTmp rows email h]

theorem mkContact_email (d : TmpEntry) : (mkContact d).email = d.email :=
  rfl

theorem any_map_contacts (L : List TmpEntry) (email : String) :
    ((L.map mkContact).any (fun c => c.email == email)) = (findEntry L email).isSome := by
  induction L with
  | nil => rfl
  | cons d tl ih =>
    rw [List.map_cons, List.any_cons, findEntry_cons, mkContact_email]
    by_cases hd : (d.email == email) = true
    · simp [hd]
    · simp only [hd, Bool.false_or, if_neg hd]
      exact ih

theorem findEntry_mem (l : List TmpEntry) (email : String) (d : TmpEntry)
    (h : findEntry l email = some d) : d ∈ l := by
  induction l with
  | nil => exact absurd h (by simp [findEntry])
  | cons x tl ih =>
    rw [findEntry_cons] at h
    by_cases hd : (x.email == email) = true
    · rw [if_pos hd] at h
      injection h with h2
      rw [← h2]
      exact List.mem_cons_self x tl
    · rw [if_neg hd] at h
      exact List.mem_cons_of_mem x (ih h)

theorem entryOf_fields (email : String) (r0 : RawRow) (tl : List RawRow) :
    ∃ d, entryOf email (r0 :: tl) = some d ∧
      d.email = email ∧
      d.sent = everSent (r0 :: tl) ∧
      d.prev = failCount (r0 :: tl) ∧
      d.err = lastFailureErr (r0 :: tl) ∧
      d.name = pyStrip r0.name ∧
      d.gender = pyLower (pyStrip (if r0.gender == "" then "x" else r0.gender)) ∧
      d.company = pyStrip r0.company := by
  refine ⟨(r0 :: tl).foldl applyRow (initEntry email r0), entryOf_cons email r0 tl,
    ?_, ?_, ?_, ?_, ?_, ?_, ?_⟩
  · rw [foldl_applyRow_email]
    rfl
  · rw [foldl_applyRow_sent]
    simp [initEntry]
  · rw [foldl_applyRow_prev]
    simp [initEntry]
  · rw [foldl_applyRow_err]
    by_cases hl : (lastFailureErr (r0 :: tl) == "") = true
    · rw [if_pos hl]
      exact (show lastFailureErr (r0 :: tl) = "" by simpa using hl).symm
    · rw [if_neg hl]
  · rw [foldl_applyRow_name]
    rfl
  · rw [foldl_applyRow_gender]
    rfl
  · rw [foldl_applyRow_company]
    rfl

theorem lastFailureErr_empty (l : List RawRow) (h : ∀ r ∈ l, isFailureRow r = false) :
    lastFailureErr l = "" := by
  induction l with
  | nil => rfl
  | cons r rs ih =>
    have hrest : lastFailureErr rs = "" := ih (fun x hx => h x (List.mem_cons_of_mem r hx))
    simp only [lastFailureErr, hrest]
    simp [h r (List.mem_cons_self r rs)]

theorem buildTmp_filter_empty_email (rows : List RawRow) :
    buildTmp (rows.filter (fun r => pyStrip r.email != "")) = buildTmp rows := by
  unfold buildTmp
  suffices hgen : ∀ tmp : List TmpEntry,
      List.foldl replayStep tmp (rows.filter (fun r => pyStrip r.email != "")) =
        List.foldl replayStep tmp rows from hgen []
  induction rows with
  | nil => intro tmp; rfl
  | cons r rest ih =>
    intro tmp
    rw [List.filter_cons]
    by_cases hp : (pyStrip r.email != "") = true
    · rw [if_pos hp, List.foldl_cons, List.foldl_cons]
      exact ih (replayStep tmp r)
    · rw [if_neg hp, List.foldl_cons]
      have hstep : replayStep tmp r = tmp := by
        unfold replayStep
        rw [if_pos (by simpa using hp)]
      rw [ih tmp, hstep]
/-! ## Claim C1 -/

/-- C1 counterexample: the email `a@b` has a row with unrecognized status
`weird` and non-empty error `boom`, followed by a `failed` row with an empty
error.  It is included on replay (1 previous failure, never sent), but the
carried-forward last error is `""` — the code only records errors from rows
with a failure status — while the claim's "error of the last prior row with
a non-empty error field" is `boom`. -/
theorem C1_counterexample :
    (replayContacts 3 [⟨"a@b", "", "x", "", "weird", "boom"⟩,
          ⟨"a@b", "", "x", "", "failed", ""⟩]).any (fun c => c.email == "a@b") = true ∧
      carriedErr 3 [⟨"a@b", "", "x", "", "weird", "boom"⟩,
          ⟨"a@b", "", "x", "", "failed", ""⟩] "a@b" ≠
        lastNonEmptyErr (rowsFor [⟨"a@b", "", "x", "", "weird", "boom"⟩,
          ⟨"a@b", "", "x", "", "failed", ""⟩] "a@b") := by
  decide

/-- C1 amended: on replay, a contact (grouped by stripped email) is included
iff it has at least one prior row, no prior row with status `sent`, and
strictly fewer rows with status in {failed, aborted_max_retries,
skipped_max_retries} than max-retries; for every included contact, that
failure count is carried forward as its previous-attempts value, and its
last error is the error of the last prior row that has a **failure status**
and a non-empty error field (not of the last row with a non-empty error of
any status, as originally claimed). -/
theorem C1_amended (maxRetries : Nat) (rows : List RawRow) (email : String)
    (h : email ≠ "") :
    ((replayContacts maxRetries rows).any (fun c => c.email == email) = true ↔
      (rowsFor rows email ≠ [] ∧ everSent (rowsFor rows email) = false ∧
        failCount (rowsFor rows email) < maxRetries)) ∧
    ((replayContacts maxRetries rows).any (fun c => c.email == email) = true →
      carriedPrev maxRetries rows email = failCount (rowsFor rows email) ∧
      carriedErr maxRetries rows email = lastFailureErr (rowsFor rows email)) := by
  have hany : (replayContacts maxRetries rows).any (fun c => c.email == email) =
      (findEntry (includedEntries maxRetries rows) email).isSome := by
    unfold replayContacts
    exact any_map_contacts _ email
  have hfind := findEntry_included maxRetries rows email h
  cases hrf : rowsFor rows email with
  | nil =>
    rw [hrf] at hfind
    simp only [entryOf, List.foldl_nil] at hfind
    constructor
    · rw [hany, hfind]
      simp
    · intro hc
      rw [hany, hfind] at hc
      simp at hc
  | cons r0 tl =>
    obtain ⟨d, hd, hemail, hsent, hprev, herr, hnm, hg, hco⟩ := entryOf_fields email r0 tl
    rw [hrf, hd] at hfind
    dsimp only at hfind
    by_cases hcond : (!d.sent && decide (d.prev < maxRetries)) = true
    · rw [if_pos hcond] at hfind
      have hc2 := hcond
      simp only [Bool.and_eq_true, Bool.not_eq_true', decide_eq_true_eq] at hc2
      constructor
      · constructor
        · intro _
          exact ⟨by simp, by rw [← hsent]; exact hc2.1, by rw [← hprev]; exact hc2.2⟩
        · intro _
          rw [hany, hfind]
          rfl
      · intro _
        refine ⟨?_, ?_⟩
        · unfold carriedPrev
          rw [hfind]
          simpa using hprev
        · unfold carriedErr
          rw [hfind]
          simpa using herr
    · rw [if_neg hcond] at hfind
      constructor
      · rw [hany, hfind]
        constructor
        · intro hc
          simp at hc
        · rintro ⟨-, hs, hp⟩
          exfalso
          apply hcond
          rw [hsent, hs, hprev]
          simp [hp]
      · intro hc
        rw [hany, hfind] at hc
        simp at hc

/-- Witness for C1 amended: a single `failed` row with error `boom` yields an
included contact carrying one previous attempt and that error. -/
theorem C1_amended_witness :
    ((replayContacts 3 [⟨"a@b", "N", "m", "C", "failed", "boom"⟩]).any
          (fun c => c.email == "a@b") = true ↔
        (rowsFor [⟨"a@b", "N", "m", "C", "failed", "boom"⟩] "a@b" ≠ [] ∧
          everSent (rowsFor [⟨"a@b", "N", "m", "C", "failed", "boom"⟩] "a@b") = false ∧
          failCount (rowsFor [⟨"a@b", "N", "m", "C", "failed", "boom"⟩] "a@b") < 3)) ∧
      ((replayContacts 3 [⟨"a@b", "N", "m", "C", "failed", "boom"⟩]).any
          (fun c => c.email == "a@b") = true →
        carriedPrev 3 [⟨"a@b", "N", "m", "C", "failed", "boom"⟩] "a@b" =
          failCount (rowsFor [⟨"a@b", "N", "m", "C", "failed", "boom"⟩] "a@b") ∧
        carriedErr 3 [⟨"a@b", "N", "m", "C", "failed", "boom"⟩] "a@b" =
          lastFailureErr (rowsFor [⟨"a@b", "N", "m", "C", "failed", "boom"⟩] "a@b")) :=
  C1_amended 3 [⟨"a@b", "N", "m", "C", "failed", "boom"⟩] "a@b" (by decide)

/-! ## Claim C5 -/

/-- C5 counterexample: two rows for `a@b`, the first named `Alice`, the
second named `Bob` (both populate the name).  The replayed contact is named
`Alice` — the code takes the fields of the **first** row for an email and
never updates them — while the claim's "whichever prior row last populated
the field" gives `Bob`. -/
theorem C5_counterexample :
    ¬ (((replayContacts 3 [⟨"a@b", "Alice", "f", "C1", "failed", "e1"⟩,
            ⟨"a@b", "Bob", "m", "C2", "failed", ""⟩]).find?
          (fun c => c.email == "a@b")).map Contact.name =
        some (lastPopulated (fun r => r.name)
          (rowsFor [⟨"a@b", "Alice", "f", "C1", "failed", "e1"⟩,
            ⟨"a@b", "Bob", "m", "C2", "failed", ""⟩] "a@b"))) := by
  decide

/-- C5 amended: a contact included by replay takes its name, gender and
company from the **first** prior row for its email (name and company
stripped; gender defaulted to `x` when empty, then stripped and lowercased),
not from the row that last populated each field. -/
theorem C5_amended (maxRetries : Nat) (rows : List RawRow) (email : String) (d : TmpEntry)
    (h1 : email ≠ "")
    (h2 : findEntry (includedEntries maxRetries rows) email = some d) :
    mkContact d ∈ replayContacts maxRetries rows ∧
    ∃ r0 tl, rowsFor rows email = r0 :: tl ∧
      d.name = pyStrip r0.name ∧
      d.gender = pyLower (pyStrip (if r0.gender == "" then "x" else r0.gender)) ∧
      d.company = pyStrip r0.company := by
  constructor
  · unfold replayContacts
    exact List.mem_map_of_mem mkContact (findEntry_mem _ _ _ h2)
  · have hfind := findEntry_included maxRetries rows email h1
    cases hrf : rowsFor rows email with
    | nil =>
      rw [hrf] at hfind
      simp only [entryOf, List.foldl_nil] at hfind
      rw [h2] at hfind
      exact Option.noConfusion hfind
    | cons r0 tl =>
      obtain ⟨d2, hd2, hemail, hsent, hprev, herr, hnm, hg, hco⟩ := entryOf_fields email r0 tl
      rw [hrf, hd2] at hfind
      dsimp only at hfind
      rw [h2] at hfind
      by_cases hcond : (!d2.sent && decide (d2.prev < maxRetries)) = true
      · rw [if_pos hcond] at hfind
        injection hfind with hdd
        exact ⟨r0, tl, rfl, by rw [hdd]; exact hnm, by rw [hdd]; exact hg,
          by rw [hdd]; exact hco⟩
      · rw [if_neg hcond] at hfind
        exact Option.noConfusion hfind

/-- Witness for C5 amended, at the counterexample's prior log: the included
entry for `a@b` carries the first row's `Alice`/`f`/`C1`. -/
theorem C5_amended_witness :
    mkContact ⟨"a@b", "Alice", "f", "C1", 2, false, "e1"⟩ ∈
      replayContacts 3 [⟨"a@b", "Alice", "f", "C1", "failed", "e1"⟩,
        ⟨"a@b", "Bob", "m", "C2", "failed", ""⟩] ∧
    ∃ r0 tl,
      rowsFor [⟨"a@b", "Alice", "f", "C1", "failed", "e1"⟩,
          ⟨"a@b", "Bob", "m", "C2", "failed", ""⟩] "a@b" = r0 :: tl ∧
      (⟨"a@b", "Alice", "f", "C1", 2, false, "e1"⟩ : TmpEntry).name = pyStrip r0.name ∧
      (⟨"a@b", "Alice", "f", "C1", 2, false, "e1"⟩ : TmpEntry).gender =
        pyLower (pyStrip (if r0.gender == "" then "x" else r0.gender)) ∧
      (⟨"a@b", "Alice", "f", "C1", 2, false, "e1"⟩ : TmpEntry).company = pyStrip r0.company :=
  C5_amended 3 [⟨"a@b", "Alice", "f", "C1", "failed", "e1"⟩,
      ⟨"a@b", "Bob", "m", "C2", "failed", ""⟩] "a@b"
    ⟨"a@b", "Alice", "f", "C1", 2, false, "e1"⟩ (by decide) (by decide)

/-! ## Claim C6 -/

/-- C6 counterexample: an email whose only row has the unrecognized status
`weird` is **included** in the replayed contact set (its `tmp` entry has
`sent = false` and `prev = 0 < max_retries`), contradicting the claim that
such an email is excluded. -/
theorem C6_counterexample :
    (replayContacts 3 [⟨"a@b", "N", "m", "C", "weird", "x"⟩]).any
      (fun c => c.email == "a@b") = true := by
  decide

/-- C6 amended: a prior-log row whose stripped email is empty contributes
nothing to the replay result; but an email all of whose rows have statuses
outside {sent, failed, aborted_max_retries, skipped_max_retries} is
**included** (with zero previous attempts and an empty carried error, since
max-retries is at least 1), not excluded as originally claimed. -/
theorem C6_amended :
    (∀ rows : List RawRow,
        buildTmp (rows.filter (fun r => pyStrip r.email != "")) = buildTmp rows) ∧
    (∀ (maxRetries : Nat) (rows : List RawRow) (email : String), email ≠ "" →
        rowsFor rows email ≠ [] → 1 ≤ maxRetries →
        (∀ r ∈ rowsFor rows email, isSentRow r = false ∧ isFailureRow r = false) →
        (replayContacts maxRetries rows).any (fun c => c.email == email) = true ∧
        carriedPrev maxRetries rows email = 0 ∧ carriedErr maxRetries rows email = "") := by
  refine ⟨buildTmp_filter_empty_email, ?_⟩
  intro mr rows email hne hnil hmr hall
  have hany : (replayContacts mr rows).any (fun c => c.email == email) =
      (findEntry (includedEntries mr rows) email).isSome := by
    unfold replayContacts
    exact any_map_contacts _ email
  have hfind := findEntry_included mr rows email hne
  cases hrf : rowsFor rows email with
  | nil => exact absurd hrf hnil
  | cons r0 tl =>
    rw [hrf] at hall
    obtain ⟨d, hd, hemail, hsent, hprev, herr, hnm, hg, hco⟩ := entryOf_fields email r0 tl
    have hsent0 : everSent (r0 :: tl) = false := by
      unfold everSent
      rw [List.any_eq_false]
      intro r hr
      rw [(hall r hr).1]
      simp
    have hcount : failCount (r0 :: tl) = 0 := by
      unfold failCount
      rw [List.countP_eq_zero]
      intro r hr
      rw [(hall r hr).2]
      simp
    have herr0 : lastFailureErr (r0 :: tl) = "" :=
      lastFailureErr_empty _ (fun r hr => (hall r hr).2)
    have hcond : (!d.sent && decide (d.prev < mr)) = true := by
      rw [hsent, hsent0, hprev, hcount]
      simp only [Bool.not_false, Bool.true_and, decide_eq_true_eq]
      omega
    rw [hrf, hd] at hfind
    dsimp only at hfind
    rw [if_pos hcond] at hfind
    refine ⟨by rw [hany, hfind]; rfl, ?_, ?_⟩
    · unfold carriedPrev
      rw [hfind]
      simp [hprev, hcount]
    · unfold carriedErr
      rw [hfind]
      simp [herr, herr0]

/-- Witness for C6 amended, at the unrecognized-status prior log. -/
theorem C6_amended_witness :
    (replayContacts 3 [⟨"c@d", "N", "m", "C", "weird", "x"⟩]).any
        (fun c => c.email == "c@d") = true ∧
      carriedPrev 3 [⟨"c@d", "N", "m", "C", "weird", "x"⟩] "c@d" = 0 ∧
      carriedErr 3 [⟨"c@d", "N", "m", "C", "weird", "x"⟩] "c@d" = "" :=
  C6_amended.2 3 [⟨"c@d", "N", "m", "C", "weird", "x"⟩] "c@d" (by decide) (by decide)
    (by decide) (by decide)

end MassMail
